import Mathlib

/-!
Verification of the pump.fun trading bot (`script.mjs`).

The script's decision engine is embedded shallowly:

* JavaScript numbers are modelled by `ℚ` (all decisions in the script are
  order comparisons and linear arithmetic on market caps, percentages and
  token amounts), wall-clock milliseconds by `ℕ`.
* The `monitorTrade` polling loop is modelled as a fold over a list of
  tick inputs, one per evaluation of the `while` condition.  Each tick
  carries the clock value `Date.now()` returned at that evaluation, the
  quote resolved by `getTokenInfoFromWebSocket` (`none` when the socket
  errored), and which of the three keyboard override flags were set by the
  operator since the previous tick.  Within a tick the clock is constant;
  the extra time that elapses between the last loop event and the final
  `Date.now() >= endTime` re-check after the loop is the explicit
  `exitDelay` parameter.
* Sell instructions are recorded as the list of fractions passed to
  `sellTokens`, in order of issue.
-/

/-- `MAX_BONDING_CURVE_PROGRESS` with the default environment (no env var). -/
def MAX_BONDING_CURVE_PROGRESS : ℚ := 10

/-- `SELL_BONDING_CURVE_PROGRESS` with the default environment. -/
def SELL_BONDING_CURVE_PROGRESS : ℚ := 15

/-- `PROFIT_TARGET_2 = 1.25`, the milestone multiplier. -/
def PROFIT_TARGET_2 : ℚ := 5 / 4

/-- `MONITOR_INTERVAL = 5 * 1000` milliseconds. -/
def MONITOR_INTERVAL : ℕ := 5 * 1000

/-- `SELL_TIMEOUT = 2 * 60 * 1000` milliseconds. -/
def SELL_TIMEOUT : ℕ := 2 * 60 * 1000

/-- `API_RETRY_LIMIT = 5`. -/
def API_RETRY_LIMIT : ℕ := 5

/-- `BASE_API_DELAY = 1000` milliseconds. -/
def BASE_API_DELAY : ℕ := 1000

/-- The cooldown window `15000` ms used by the scanner (`setTimeout` at line 371). -/
def COOLDOWN_WINDOW : ℕ := 15000

/-- A resolved quote, as produced by `getTokenInfoFromWebSocket`. -/
structure TokenInfo where
  ticker : String
  marketcap : ℚ
  bondingCurve : ℚ
deriving DecidableEq

/-- The mutable state of one `monitorTrade` run: the local variables
`endTime` and `lastMarketCap`, plus the three global override flags that
the loop reads and clears. -/
structure MonitorState where
  endTime : ℕ
  lastMarketCap : ℚ
  resetTimer : Bool
  continueTrade : Bool
  sellImmediately : Bool
deriving DecidableEq

/-- `marketCapChange = ((marketcap - initialMarketCap) / initialMarketCap) * 100`. -/
def marketCapChange (initialMarketCap marketcap : ℚ) : ℚ :=
  (marketcap - initialMarketCap) / initialMarketCap * 100

/-- Result of processing one resolved (or unresolved) quote inside the loop
body: the updated state, the fractions passed to `sellTokens` during the
tick, and whether a `break` was executed. -/
structure TickResult where
  st : MonitorState
  sells : List ℚ
  broke : Bool
deriving DecidableEq

/-- Lines 282-286: `if (tokenInfo.marketcap > lastMarketCap * PROFIT_TARGET_2)`
then sell 75% and advance `lastMarketCap`. -/
def milestoneCheck (t : TokenInfo) (st : MonitorState) (sells : List ℚ) :
    MonitorState × List ℚ :=
  if st.lastMarketCap * PROFIT_TARGET_2 < t.marketcap then
    ({ st with lastMarketCap := t.marketcap }, sells ++ [3 / 4])
  else (st, sells)

/-- Lines 288-305: consume `resetTimer`, then `continueTrade` (break without
selling), then `sellImmediately` (sell 75% and break), in that order. -/
def applyOverrides (now : ℕ) (p : MonitorState × List ℚ) : TickResult :=
  let st1 :=
    if p.1.resetTimer then
      { p.1 with endTime := now + SELL_TIMEOUT, resetTimer := false }
    else p.1
  if st1.continueTrade then ⟨{ st1 with continueTrade := false }, p.2, true⟩
  else if st1.sellImmediately then
    ⟨{ st1 with sellImmediately := false }, p.2 ++ [3 / 4], true⟩
  else ⟨st1, p.2, false⟩

/-- Lines 257-306, the body of one loop iteration.  When the quote is
unresolved nothing is evaluated.  Otherwise the primary `else if` chain
runs first: at `>= 25` sell 50%, record `lastMarketCap` and set
`continueTrade` (line 271); at `<= -10` sell 100% and `break`; at bonding
curve `>= 15` sell 75% and `break`.  On the paths that did not `break`,
the milestone check and then the override flags are processed. -/
def monitorTick (imc : ℚ) (now : ℕ) (info : Option TokenInfo)
    (st : MonitorState) : TickResult :=
  match info with
  | none => ⟨st, [], false⟩
  | some t =>
    if 25 ≤ marketCapChange imc t.marketcap then
      applyOverrides now
        (milestoneCheck t
          { st with lastMarketCap := t.marketcap, continueTrade := true } [1 / 2])
    else if marketCapChange imc t.marketcap ≤ -10 then
      ⟨st, [1], true⟩
    else if SELL_BONDING_CURVE_PROGRESS ≤ t.bondingCurve then
      ⟨st, [3 / 4], true⟩
    else
      applyOverrides now (milestoneCheck t st [])

/-- One evaluation of the `while` condition: the clock value returned by
`Date.now()`, the quote this tick resolved to, and which override keys the
operator pressed since the previous tick. -/
structure TickInput where
  now : ℕ
  info : Option TokenInfo
  pressR : Bool
  pressC : Bool
  pressS : Bool
deriving DecidableEq

/-- Key presses arriving before a tick are ORed into the flag state and are
observed by that tick (spec ordering guarantee). -/
def setFlags (inp : TickInput) (st : MonitorState) : MonitorState :=
  { st with
    resetTimer := st.resetTimer || inp.pressR
    continueTrade := st.continueTrade || inp.pressC
    sellImmediately := st.sellImmediately || inp.pressS }

/-- How the `while` loop ended: the condition failed at clock `t`
(`timeout`), a `break` ran on the tick whose condition was checked at
clock `t` (`broke`), or the supplied trace ended with the loop still
running (`exhausted`). -/
inductive MonitorExit where
  | timeout (t : ℕ)
  | broke (t : ℕ)
  | exhausted
deriving DecidableEq

/-- The `while (Date.now() < endTime)` loop of `monitorTrade`, folded over
a list of tick inputs.  Returns the final state, all fractions passed to
`sellTokens` inside the loop, and how the loop ended. -/
def runMonitor (imc : ℚ) : MonitorState → List TickInput →
    MonitorState × List ℚ × MonitorExit
  | st, [] => (st, [], .exhausted)
  | st, inp :: rest =>
    if inp.now < st.endTime then
      let r := monitorTick imc inp.now inp.info (setFlags inp st)
      if r.broke then (r.st, r.sells, .broke inp.now)
      else
        let k := runMonitor imc r.st rest
        (k.1, r.sells ++ k.2.1, k.2.2)
    else (st, [], .timeout inp.now)

/-- The state at entry to `monitorTrade`: `endTime = Date.now() + SELL_TIMEOUT`,
`lastMarketCap = initialMarketCap`, flags clear. -/
def initState (imc : ℚ) (startTime : ℕ) : MonitorState :=
  ⟨startTime + SELL_TIMEOUT, imc, false, false, false⟩

/-- Lines 251-315, `monitorTrade` in full: run the loop, then re-read the
clock (`exitDelay` milliseconds after the event that ended the loop) and,
if `Date.now() >= endTime`, sell a further 75%.  Returns every fraction
passed to `sellTokens`, how the loop ended, and the final state. -/
def monitorTrade (imc : ℚ) (startTime : ℕ) (ticks : List TickInput)
    (exitDelay : ℕ) : List ℚ × MonitorExit × MonitorState :=
  let r := runMonitor imc (initState imc startTime) ticks
  match r.2.2 with
  | .exhausted => (r.2.1, r.2.2, r.1)
  | .timeout t =>
    if r.1.endTime ≤ t + exitDelay then (r.2.1 ++ [3 / 4], r.2.2, r.1)
    else (r.2.1, r.2.2, r.1)
  | .broke t =>
    if r.1.endTime ≤ t + exitDelay then (r.2.1 ++ [3 / 4], r.2.2, r.1)
    else (r.2.1, r.2.2, r.1)

/-- A token balance as displayed by the bot (`amount` already divided by 10^6). -/
structure SPLToken where
  mint : String
  amount : ℚ
deriving DecidableEq

/-- A raw SPL token account: mint and raw `u64` amount. -/
structure RawTokenAccount where
  mint : String
  amount : ℕ
deriving DecidableEq

/-- Lines 208-222: map each account to its display amount (`/ 10^6`) and keep
only tokens with `amount > 1`. -/
def fetchSPLTokens (accounts : List RawTokenAccount) : List SPLToken :=
  (accounts.map fun a => SPLToken.mk a.mint ((a.amount : ℚ) / 10 ^ 6)).filter
    fun t => decide (1 < t.amount)

/-- Observable outcome of a `sellTokens` call. -/
inductive SellOutcome where
  | submitted (amount : ℚ)
  | skippedDust
  | noToken
deriving DecidableEq

/-- Lines 224-249: find the first held token with the given mint; submit a
sell for `amount * sellPercentage` when that is `>= 1`, otherwise log the
dust skip; when no token matches, return without doing anything. -/
def sellTokens (tokens : List SPLToken) (mint : String)
    (sellPercentage : ℚ) : SellOutcome :=
  match tokens.find? (fun t => t.mint == mint) with
  | none => .noToken
  | some t =>
    if 1 ≤ t.amount * sellPercentage then .submitted (t.amount * sellPercentage)
    else .skippedDust

/-- One message arriving on the scanner socket (lines 365-387): arrival
clock, channel, candidate mint, the quote the follow-up subscription
resolved to, and whether `pumpFunBuy` returned a transaction hash. -/
structure ScannerMsg where
  time : ℕ
  channel : String
  mint : String
  info : Option TokenInfo
  buyTx : Bool
deriving DecidableEq

/-- Observable outcome of the scanner message handler. -/
inductive ScanOutcome where
  | ignoredCooldown
  | notNewPairs
  | evaluated (opened : Bool)
deriving DecidableEq

/-- Lines 365-387, the `simulateTrade` message handler.  The cooldown is
modelled by the clock value `cooldownUntil` at which it clears
(`cooldownActive` at time `t` means `t < cooldownUntil`).  A message during
cooldown is dropped before any parsing.  A `new_pairs` message outside
cooldown sets the cooldown to clear `COOLDOWN_WINDOW` later and then
evaluates the candidate; a position is opened only when the quote resolved,
its bonding curve is below `MAX_BONDING_CURVE_PROGRESS`, and the buy
returned a hash. -/
def simulateTradeStep (cooldownUntil : ℕ) (m : ScannerMsg) : ℕ × ScanOutcome :=
  if m.time < cooldownUntil then (cooldownUntil, .ignoredCooldown)
  else if m.channel = "new_pairs" then
    let cd := m.time + COOLDOWN_WINDOW
    match m.info with
    | some t =>
      (cd, .evaluated (decide (t.bondingCurve < MAX_BONDING_CURVE_PROGRESS) && m.buyTx))
    | none => (cd, .evaluated false)
  else (cooldownUntil, .notNewPairs)

/-- An HTTP error response as seen by `apiRequest`: status code and the
numeric value of the `retry-after` header, when one was sent. -/
structure HttpResponse where
  status : ℕ
  retryAfter : Option ℕ
deriving DecidableEq

/-- Outcome of one `axios.post` attempt: success, or a failure that may
carry a response (`none` models a network error with no response). -/
inductive ApiOutcome where
  | success
  | failure (resp : Option HttpResponse)
deriving DecidableEq

/-- How `apiRequest` ended: returned data, threw the last error, or fell
out of the `while` loop (possible only when `retries = 0`). -/
inductive ApiResult where
  | returned
  | threw
  | fellThrough
deriving DecidableEq

/-- Trace of one `apiRequest` call: number of `axios.post` attempts made,
the sleep durations between attempts, and how the call ended. -/
structure ApiTrace where
  attemptsUsed : ℕ
  sleeps : List ℕ
  res : ApiResult
deriving DecidableEq

/-- Line 146: `error.response.headers['retry-after'] * 1000 || delay`.
A missing header multiplies to `NaN` and a `0` header to `0`, both falsy in
JavaScript, so both fall back to the current `delay`; a non-429 status or a
response-less error leaves `delay` unchanged. -/
def next429Delay (delay : ℕ) (resp : Option HttpResponse) : ℕ :=
  match resp with
  | some r =>
    if r.status = 429 then
      match r.retryAfter with
      | some ra => if ra * 1000 = 0 then delay else ra * 1000
      | none => delay
    else delay
  | none => delay

/-- Lines 137-159, the retry loop of `apiRequest`.  `fuel` mirrors the
`attempt < retries` guard (callers keep `attempt + fuel = retries`): on a
failure the delay is updated by the 429 rule, then `++attempt >= retries`
throws, otherwise the loop sleeps for `delay` and doubles it. -/
def apiGo (outcomes : ℕ → ApiOutcome) (retries : ℕ) :
    ℕ → ℕ → ℕ → ApiTrace
  | 0, attempt, _ => ⟨attempt, [], .fellThrough⟩
  | fuel + 1, attempt, delay =>
    match outcomes attempt with
    | .success => ⟨attempt + 1, [], .returned⟩
    | .failure resp =>
      let d := next429Delay delay resp
      if retries ≤ attempt + 1 then ⟨attempt + 1, [], .threw⟩
      else
        let k := apiGo outcomes retries fuel (attempt + 1) (d * 2)
        ⟨k.attemptsUsed, d :: k.sleeps, k.res⟩

/-- Lines 133-160: `apiRequest` starts at `attempt = 0`,
`delay = BASE_API_DELAY`. -/
def apiRequest (outcomes : ℕ → ApiOutcome) (retries : ℕ) : ApiTrace :=
  apiGo outcomes retries retries 0 BASE_API_DELAY

/-- Behaviour of the override block: `endTime` is reset exactly when
`resetTimer` was set, `resetTimer` is always clear afterwards,
`lastMarketCap` is untouched, and at most one further 75% sell
(`sellImmediately`) is appended. -/
theorem applyOverrides_spec (now : ℕ) (p : MonitorState × List ℚ) :
    (applyOverrides now p).st.endTime
      = (if p.1.resetTimer = true then now + SELL_TIMEOUT else p.1.endTime)
    ∧ (applyOverrides now p).st.resetTimer = false
    ∧ (applyOverrides now p).st.lastMarketCap = p.1.lastMarketCap
    ∧ ((applyOverrides now p).sells = p.2
        ∨ (applyOverrides now p).sells = p.2 ++ [3 / 4]) := by
  obtain ⟨st, sells⟩ := p
  cases hr : st.resetTimer <;> cases hc : st.continueTrade <;>
    cases hs : st.sellImmediately <;>
    simp [applyOverrides, hr, hc, hs]

/-- The milestone check only ever touches `lastMarketCap` and the sell list. -/
theorem milestoneCheck_preserve (t : TokenInfo) (st : MonitorState)
    (sells : List ℚ) :
    (milestoneCheck t st sells).1.endTime = st.endTime
    ∧ (milestoneCheck t st sells).1.resetTimer = st.resetTimer
    ∧ (milestoneCheck t st sells).1.continueTrade = st.continueTrade
    ∧ (milestoneCheck t st sells).1.sellImmediately = st.sellImmediately := by
  unfold milestoneCheck
  split <;> simp

/-- Claim C1 (code_bug evidence): at entry market cap 100, a tick quoting
market cap 126 (change +26% ≥ 25%) sells 50% and records
`lastMarketCap = 126`, but also sets `continueTrade`, so the loop breaks on
that very tick: the second scheduled tick is never polled and the run ends
with the single 50% sell (`.broke 0`), contradicting the claim (and the
program's own splash-screen strategy of a later 75% sell at the next
+25%). -/
theorem C1_code_run :
    monitorTrade 100 0
      [⟨0, some ⟨"T", 126, 0⟩, false, false, false⟩,
       ⟨5000, some ⟨"T", 126, 0⟩, false, false, false⟩] 0
      = ([1 / 2], .broke 0, ⟨120000, 126, false, false, false⟩) := by
  norm_num [monitorTrade, runMonitor, initState, setFlags, monitorTick,
    marketCapChange, milestoneCheck, applyOverrides, SELL_TIMEOUT,
    SELL_BONDING_CURVE_PROGRESS, PROFIT_TARGET_2]

/-- Claim C2 counterexample: with `lastMarketCap = 1`, entry cap 100 and a
quote at 80 the stop-loss fires (−20% ≤ −10%) and the milestone condition
`80 > 1 * 1.25` holds, yet the tick returns immediately with only the 100%
sell and an unchanged state: the milestone check was not evaluated. -/
theorem C2_counterexample :
    monitorTick 100 0 (some ⟨"T", 80, 0⟩) ⟨120000, 1, false, false, false⟩
      = ⟨⟨120000, 1, false, false, false⟩, [1], true⟩
    ∧ (1 : ℚ) * PROFIT_TARGET_2 < 80 := by
  norm_num [monitorTick, marketCapChange, PROFIT_TARGET_2]

/-- Claim C2 (amended): on a resolved tick that is not a +25% tick, the
milestone profit check is evaluated only when neither the stop-loss branch
nor the bonding-curve branch fired: when one of those fires the loop breaks
at once with the state untouched (so the milestone check is skipped even if
its condition holds), and when neither fires and the milestone condition
holds the monitor sells 75% first and advances `lastMarketCap` to the
quoted market cap. -/
theorem C2_amended (imc : ℚ) (now : ℕ) (t : TokenInfo) (st : MonitorState)
    (h25 : ¬ 25 ≤ marketCapChange imc t.marketcap) :
    ((marketCapChange imc t.marketcap ≤ -10
        ∨ SELL_BONDING_CURVE_PROGRESS ≤ t.bondingCurve) →
      (monitorTick imc now (some t) st).st = st
      ∧ (monitorTick imc now (some t) st).broke = true)
    ∧ (¬ marketCapChange imc t.marketcap ≤ -10 →
        ¬ SELL_BONDING_CURVE_PROGRESS ≤ t.bondingCurve →
        st.lastMarketCap * PROFIT_TARGET_2 < t.marketcap →
        (monitorTick imc now (some t) st).st.lastMarketCap = t.marketcap
        ∧ (monitorTick imc now (some t) st).sells.head? = some (3 / 4)) := by
  constructor
  · rintro (hb | hc)
    · simp [monitorTick, h25, hb]
    · by_cases hb : marketCapChange imc t.marketcap ≤ -10
      · simp [monitorTick, h25, hb]
      · simp [monitorTick, h25, hb, hc]
  · intro hb hc hm
    have key : monitorTick imc now (some t) st
        = applyOverrides now ({ st with lastMarketCap := t.marketcap }, [3 / 4]) := by
      simp [monitorTick, h25, hb, hc, milestoneCheck, hm]
    rw [key]
    obtain ⟨-, -, hlm, hsells⟩ :=
      applyOverrides_spec now ({ st with lastMarketCap := t.marketcap }, [3 / 4])
    refine ⟨by rw [hlm], ?_⟩
    rcases hsells with h | h <;> rw [h] <;> rfl

/-- Claim C2 amended, witness: entry cap 100, quote at 80 with
`lastMarketCap = 1`: the stop-loss tick returns with only the full sell and
the state unchanged. -/
theorem C2_amended_witness :
    ¬ 25 ≤ marketCapChange 100 80 ∧
    (((marketCapChange 100 80 ≤ -10
        ∨ SELL_BONDING_CURVE_PROGRESS ≤ (0 : ℚ)) →
      (monitorTick 100 0 (some ⟨"T", 80, 0⟩) ⟨120000, 1, false, false, false⟩).st
          = ⟨120000, 1, false, false, false⟩
      ∧ (monitorTick 100 0 (some ⟨"T", 80, 0⟩) ⟨120000, 1, false, false, false⟩).broke = true)
    ∧ (¬ marketCapChange 100 80 ≤ -10 →
        ¬ SELL_BONDING_CURVE_PROGRESS ≤ (0 : ℚ) →
        (1 : ℚ) * PROFIT_TARGET_2 < 80 →
        (monitorTick 100 0 (some ⟨"T", 80, 0⟩) ⟨120000, 1, false, false, false⟩).st.lastMarketCap = 80
        ∧ (monitorTick 100 0 (some ⟨"T", 80, 0⟩) ⟨120000, 1, false, false, false⟩).sells.head?
            = some (3 / 4))) :=
  ⟨by norm_num [marketCapChange],
   C2_amended 100 0 ⟨"T", 80, 0⟩ ⟨120000, 1, false, false, false⟩
     (by norm_num [marketCapChange])⟩

/-- Claim C4: on any resolved tick with `marketCapChange ≤ -10` the monitor
sells 100% and breaks, whatever the bonding-curve value and whatever the
rest of the state: the stop-loss branch shadows the bonding-curve branch. -/
theorem C4_stopLossPriority (imc : ℚ) (now : ℕ) (t : TokenInfo)
    (st : MonitorState) (h : marketCapChange imc t.marketcap ≤ -10) :
    monitorTick imc now (some t) st = ⟨st, [1], true⟩ := by
  have h25 : ¬ (25 : ℚ) ≤ marketCapChange imc t.marketcap := by
    intro hc; linarith
  simp [monitorTick, h25, h]

/-- Claim C4 witness: entry cap 100, quote at 80 with bonding curve 20
(both the stop-loss and the bonding-curve conditions hold): the full
liquidation branch wins. -/
theorem C4_stopLossPriority_witness :
    marketCapChange 100 80 ≤ -10 ∧ SELL_BONDING_CURVE_PROGRESS ≤ (20 : ℚ) ∧
    monitorTick 100 0 (some ⟨"T", 80, 20⟩) ⟨120000, 100, false, false, false⟩
      = ⟨⟨120000, 100, false, false, false⟩, [1], true⟩ :=
  ⟨by norm_num [marketCapChange], by norm_num [SELL_BONDING_CURVE_PROGRESS],
   C4_stopLossPriority 100 0 ⟨"T", 80, 20⟩ ⟨120000, 100, false, false, false⟩
     (by norm_num [marketCapChange])⟩

/-- On the two paths that reach the override block, `endTime` afterwards is
`now + SELL_TIMEOUT` exactly when `resetTimer` was set, and the flag is
clear afterwards. -/
theorem overrides_after_milestone (now : ℕ) (t : TokenInfo)
    (st0 : MonitorState) (sells : List ℚ) :
    (applyOverrides now (milestoneCheck t st0 sells)).st.endTime
      = (if st0.resetTimer = true then now + SELL_TIMEOUT else st0.endTime)
    ∧ (applyOverrides now (milestoneCheck t st0 sells)).st.resetTimer = false := by
  obtain ⟨he, hr, -, -⟩ := applyOverrides_spec now (milestoneCheck t st0 sells)
  obtain ⟨pe, pr, -, -⟩ := milestoneCheck_preserve t st0 sells
  rw [he, pe, pr]
  exact ⟨rfl, hr⟩

/-- Claim C6: on any resolved tick that reaches the override block (the
+25% branch fired, or no terminating primary branch fired), the deadline
afterwards equals `now + SELL_TIMEOUT` exactly when `resetTimer` was
observed set, it is untouched when the flag was clear, and the flag is
always clear afterwards — so a consumed flag has no further effect until
set again. -/
theorem C6_resetTimerConsume (imc : ℚ) (now : ℕ) (t : TokenInfo)
    (st : MonitorState)
    (hreach : 25 ≤ marketCapChange imc t.marketcap ∨
      (¬ marketCapChange imc t.marketcap ≤ -10
        ∧ t.bondingCurve < SELL_BONDING_CURVE_PROGRESS)) :
    (monitorTick imc now (some t) st).st.endTime
      = (if st.resetTimer = true then now + SELL_TIMEOUT else st.endTime)
    ∧ (monitorTick imc now (some t) st).st.resetTimer = false := by
  by_cases h25 : 25 ≤ marketCapChange imc t.marketcap
  · have key : monitorTick imc now (some t) st
        = applyOverrides now
            (milestoneCheck t
              { st with lastMarketCap := t.marketcap, continueTrade := true } [1 / 2]) := by
      simp [monitorTick, h25]
    rw [key]
    have h := overrides_after_milestone now t
      { st with lastMarketCap := t.marketcap, continueTrade := true } [1 / 2]
    simpa using h
  · rcases hreach with h | ⟨hb, hc⟩
    · exact absurd h h25
    · have key : monitorTick imc now (some t) st
          = applyOverrides now (milestoneCheck t st []) := by
        simp [monitorTick, h25, hb, not_le.mpr hc]
      rw [key]
      exact overrides_after_milestone now t st []

/-- Claim C6 witness: flag set, change +3%, bonding curve 0: the deadline
becomes `7 + SELL_TIMEOUT` and the flag is cleared. -/
theorem C6_resetTimerConsume_witness :
    (¬ marketCapChange 100 103 ≤ -10 ∧ (0 : ℚ) < SELL_BONDING_CURVE_PROGRESS) ∧
    ((monitorTick 100 7 (some ⟨"T", 103, 0⟩) ⟨120000, 100, true, false, false⟩).st.endTime
        = (if true = true then 7 + SELL_TIMEOUT else 120000)
      ∧ (monitorTick 100 7 (some ⟨"T", 103, 0⟩) ⟨120000, 100, true, false, false⟩).st.resetTimer
        = false) :=
  ⟨⟨by norm_num [marketCapChange], by norm_num [SELL_BONDING_CURVE_PROGRESS]⟩,
   C6_resetTimerConsume 100 7 ⟨"T", 103, 0⟩ ⟨120000, 100, true, false, false⟩
     (Or.inr ⟨by norm_num [marketCapChange],
       by norm_num [SELL_BONDING_CURVE_PROGRESS]⟩)⟩

/-- When the loop ends because its condition failed at clock `u`, the final
`endTime` is at most `u` (the condition was checked against the final
state). -/
theorem runMonitor_timeout_le (imc : ℚ) :
    ∀ (ticks : List TickInput) (st : MonitorState) (u : ℕ),
      (runMonitor imc st ticks).2.2 = .timeout u →
      (runMonitor imc st ticks).1.endTime ≤ u := by
  intro ticks
  induction ticks with
  | nil =>
    intro st u h
    simp [runMonitor] at h
  | cons inp rest ih =>
    intro st u h
    by_cases hnow : inp.now < st.endTime
    · rw [runMonitor] at h ⊢
      rw [if_pos hnow] at h ⊢
      by_cases hbr : (monitorTick imc inp.now inp.info (setFlags inp st)).broke
      · simp only [hbr, if_true] at h
        exact MonitorExit.noConfusion h
      · simp only [hbr, if_false, Bool.false_eq_true] at h ⊢
        exact ih _ u h
    · rw [runMonitor] at h ⊢
      rw [if_neg hnow] at h ⊢
      simp only [MonitorExit.timeout.injEq] at h
      subst h
      exact Nat.not_lt.mp hnow

/-- Claim C3 counterexample: a single tick at clock 0 quoting change +3%
with bonding curve 16 fires the terminal bonding-curve branch (75% sell,
break).  The tick's processing takes 120000 ms, so the post-loop
`Date.now() >= endTime` re-check succeeds and a second 75% sell is issued
after the terminal transition. -/
theorem C3_counterexample :
    monitorTrade 100 0 [⟨0, some ⟨"T", 103, 16⟩, false, false, false⟩] 120000
      = ([3 / 4, 3 / 4], .broke 0, ⟨120000, 100, false, false, false⟩) := by
  norm_num [monitorTrade, runMonitor, initState, setFlags, monitorTick,
    marketCapChange, milestoneCheck, applyOverrides, SELL_TIMEOUT,
    SELL_BONDING_CURVE_PROGRESS, PROFIT_TARGET_2]

/-- Claim C3 (amended): after a terminal break the monitor issues no
further sell — provided the clock has not passed the deadline by the time
the loop exits; and the post-loop timeout 75% sell fires on every run whose
loop ended with the `while` condition failing (no terminal branch fired
earlier on those runs). -/
theorem C3_amended (imc : ℚ) (startTime exitDelay : ℕ)
    (ticks : List TickInput) :
    (∀ u : ℕ,
      (runMonitor imc (initState imc startTime) ticks).2.2 = .broke u →
      u + exitDelay < (runMonitor imc (initState imc startTime) ticks).1.endTime →
      (monitorTrade imc startTime ticks exitDelay).1
        = (runMonitor imc (initState imc startTime) ticks).2.1)
    ∧ ∀ u : ℕ,
      (runMonitor imc (initState imc startTime) ticks).2.2 = .timeout u →
      (monitorTrade imc startTime ticks exitDelay).1
        = (runMonitor imc (initState imc startTime) ticks).2.1 ++ [3 / 4] := by
  constructor
  · intro u hb hlt
    simp only [monitorTrade, hb]
    rw [if_neg (Nat.not_le.mpr hlt)]
  · intro u ht
    have hle : (runMonitor imc (initState imc startTime) ticks).1.endTime ≤ u :=
      runMonitor_timeout_le imc ticks (initState imc startTime) u ht
    simp only [monitorTrade, ht]
    rw [if_pos (Nat.le_trans hle (Nat.le_add_right u exitDelay))]

/-- Claim C3 amended, witness: the same bonding-curve break with no time
elapsing inside the tick: only the one terminal 75% sell is issued. -/
theorem C3_amended_witness :
    (runMonitor 100 (initState 100 0)
        [⟨0, some ⟨"T", 103, 16⟩, false, false, false⟩]).2.2 = .broke 0 ∧
    (monitorTrade 100 0 [⟨0, some ⟨"T", 103, 16⟩, false, false, false⟩] 0).1
      = (runMonitor 100 (initState 100 0)
          [⟨0, some ⟨"T", 103, 16⟩, false, false, false⟩]).2.1 :=
  ⟨by norm_num [runMonitor, initState, setFlags, monitorTick, marketCapChange,
      milestoneCheck, applyOverrides, SELL_TIMEOUT, SELL_BONDING_CURVE_PROGRESS,
      PROFIT_TARGET_2],
   (C3_amended 100 0 0 [⟨0, some ⟨"T", 103, 16⟩, false, false, false⟩]).1 0
     (by norm_num [runMonitor, initState, setFlags, monitorTick, marketCapChange,
        milestoneCheck, applyOverrides, SELL_TIMEOUT, SELL_BONDING_CURVE_PROGRESS,
        PROFIT_TARGET_2])
     (by norm_num [runMonitor, initState, setFlags, monitorTick, marketCapChange,
        milestoneCheck, applyOverrides, SELL_TIMEOUT, SELL_BONDING_CURVE_PROGRESS,
        PROFIT_TARGET_2])⟩

/-- A tick on which no threshold branch can fire and no override key was
pressed: the quote (when resolved) is strictly inside all thresholds and
below the milestone target relative to the entry cap. -/
def noTrigger (imc : ℚ) (inp : TickInput) : Prop :=
  inp.pressR = false ∧ inp.pressC = false ∧ inp.pressS = false ∧
  ∀ t : TokenInfo, inp.info = some t →
    marketCapChange imc t.marketcap < 25 ∧
    -10 < marketCapChange imc t.marketcap ∧
    t.bondingCurve < SELL_BONDING_CURVE_PROGRESS ∧
    t.marketcap ≤ imc * PROFIT_TARGET_2

/-- A `noTrigger` tick leaves the steady state (milestone still at the
entry cap, flags clear) unchanged, sells nothing and does not break. -/
theorem tick_noTrigger (imc : ℚ) (e : ℕ) (inp : TickInput)
    (h : noTrigger imc inp) :
    monitorTick imc inp.now inp.info (setFlags inp ⟨e, imc, false, false, false⟩)
      = ⟨⟨e, imc, false, false, false⟩, [], false⟩ := by
  obtain ⟨hR, hC, hS, hq⟩ := h
  cases hinfo : inp.info with
  | none =>
    simp [monitorTick, setFlags, hR, hC, hS]
  | some t =>
    obtain ⟨h25, h10, hbc, hms⟩ := hq t hinfo
    simp [monitorTick, setFlags, applyOverrides, milestoneCheck, hR, hC, hS,
      not_le.mpr h25, not_le.mpr hbc, not_lt.mpr hms, not_le.mpr h10]

/-- Run of the loop on `noTrigger` ticks up to the first clock value at or
past the deadline: nothing is sold, nothing changes, and the loop ends with
the `while` condition failing at that clock value. -/
theorem runMonitor_noTrigger_append (imc : ℚ) (e : ℕ) (inp : TickInput)
    (post : List TickInput) :
    ∀ pre : List TickInput,
      (∀ i ∈ pre, i.now < e ∧ noTrigger imc i) → e ≤ inp.now →
      runMonitor imc ⟨e, imc, false, false, false⟩ (pre ++ inp :: post)
        = (⟨e, imc, false, false, false⟩, [], .timeout inp.now) := by
  intro pre
  induction pre with
  | nil =>
    intro _ hinp
    simp [runMonitor, Nat.not_lt.mpr hinp]
  | cons a rest ih =>
    intro hpre hinp
    have ha := hpre a (List.mem_cons_self a rest)
    have htick := tick_noTrigger imc e a ha.2
    rw [List.cons_append, runMonitor, if_pos ha.1]
    simp only [htick]
    rw [ih (fun i hi => hpre i (List.mem_cons_of_mem a hi)) hinp]
    rfl

/-- Claim C5: when every tick before the first clock reading at or past the
deadline is a `noTrigger` tick, the monitor ends by the `while` condition
failing at that reading and issues exactly one 75% sell (the post-loop
timeout sell), whatever happens in the unreached rest of the schedule and
however long the final re-check is delayed; moreover, if that reading came
at most one poll interval after the last in-deadline tick, it is within one
poll interval of the deadline. -/
theorem C5_timeoutExit (imc : ℚ) (startTime exitDelay : ℕ)
    (pre post : List TickInput) (inp : TickInput)
    (hpre : ∀ i ∈ pre, i.now < startTime + SELL_TIMEOUT ∧ noTrigger imc i)
    (hinp : startTime + SELL_TIMEOUT ≤ inp.now) :
    monitorTrade imc startTime (pre ++ inp :: post) exitDelay
      = ([3 / 4], .timeout inp.now, initState imc startTime)
    ∧ ∀ a, pre.getLast? = some a → inp.now ≤ a.now + MONITOR_INTERVAL →
        inp.now < startTime + SELL_TIMEOUT + MONITOR_INTERVAL := by
  have hrun :
      runMonitor imc (initState imc startTime) (pre ++ inp :: post)
        = (initState imc startTime, [], .timeout inp.now) := by
    rw [initState]
    exact runMonitor_noTrigger_append imc (startTime + SELL_TIMEOUT) inp post pre
      hpre hinp
  constructor
  · have hend : (initState imc startTime).endTime ≤ inp.now + exitDelay :=
      Nat.le_trans hinp (Nat.le_add_right inp.now exitDelay)
    simp only [monitorTrade, hrun]
    rw [if_pos hend]
    rfl
  · intro a hlast hgap
    have hmem : a ∈ pre := List.mem_of_mem_getLast? hlast
    have := (hpre a hmem).1
    omega

/-- Claim C5 witness: two scheduled condition checks, at clock 0 (socket
error, no quote) and at clock 120000: the run exits at the deadline with
the single timeout 75% sell. -/
theorem C5_timeoutExit_witness :
    monitorTrade 100 0
      [⟨0, none, false, false, false⟩, ⟨120000, none, false, false, false⟩] 0
      = ([3 / 4], .timeout 120000, initState 100 0)
    ∧ ∀ a, [(⟨0, none, false, false, false⟩ : TickInput)].getLast? = some a →
        120000 ≤ a.now + MONITOR_INTERVAL →
        120000 < 0 + SELL_TIMEOUT + MONITOR_INTERVAL :=
  C5_timeoutExit 100 0 0 [⟨0, none, false, false, false⟩] []
    ⟨120000, none, false, false, false⟩
    (by
      intro i hi
      rw [List.mem_singleton] at hi
      subst hi
      exact ⟨by norm_num [SELL_TIMEOUT],
        ⟨rfl, rfl, rfl, fun t ht => Option.noConfusion ht⟩⟩)
    (by norm_num [SELL_TIMEOUT])

/-- Claim C7: when the held token matching the mint would give
`amountToSell = amount * fraction < 1`, `sellTokens` only logs the skip;
and whenever a sell is actually submitted its amount is at least 1. -/
theorem C7_noDustOrder (tokens : List SPLToken) (mint : String) (pct : ℚ) :
    (∀ t, tokens.find? (fun x => x.mint == mint) = some t →
      t.amount * pct < 1 → sellTokens tokens mint pct = .skippedDust)
    ∧ ∀ a, sellTokens tokens mint pct = .submitted a → 1 ≤ a := by
  constructor
  · intro t hf hlt
    simp only [sellTokens, hf]
    rw [if_neg (not_le.mpr hlt)]
  · intro a ha
    cases hf : tokens.find? (fun x => x.mint == mint) with
    | none =>
      simp only [sellTokens, hf] at ha
      exact SellOutcome.noConfusion ha
    | some t =>
      simp only [sellTokens, hf] at ha
      by_cases h1 : 1 ≤ t.amount * pct
      · rw [if_pos h1] at ha
        obtain ⟨rfl⟩ := SellOutcome.submitted.inj ha
        exact h1
      · rw [if_neg h1] at ha
        exact SellOutcome.noConfusion ha

/-- Claim C7 witness: holding 1.5 tokens, selling 50% computes 0.75 < 1 and
skips; and any submitted amount is at least 1. -/
theorem C7_noDustOrder_witness :
    ([SPLToken.mk "m" (3 / 2)].find? (fun x => x.mint == "m")
        = some (SPLToken.mk "m" (3 / 2)))
    ∧ (3 / 2 : ℚ) * (1 / 2) < 1
    ∧ sellTokens [SPLToken.mk "m" (3 / 2)] "m" (1 / 2) = .skippedDust :=
  ⟨by simp [List.find?], by norm_num,
   (C7_noDustOrder [SPLToken.mk "m" (3 / 2)] "m" (1 / 2)).1
     (SPLToken.mk "m" (3 / 2)) (by simp [List.find?]) (by norm_num)⟩

/-- Claim C10: a mint whose accounts all hold at most 1 display unit never
reaches `sellTokens`' loop body — the call returns with no submission and
no dust log; conversely the dust-skip outcome is possible only for a held
amount above 1 whose computed sell amount is still below 1. -/
theorem C10_dustFilter (accounts : List RawTokenAccount) (mint : String)
    (pct : ℚ) :
    ((∀ a ∈ accounts, a.mint = mint → (a.amount : ℚ) / 10 ^ 6 ≤ 1) →
      sellTokens (fetchSPLTokens accounts) mint pct = .noToken)
    ∧ (sellTokens (fetchSPLTokens accounts) mint pct = .skippedDust →
      ∃ t, (fetchSPLTokens accounts).find? (fun x => x.mint == mint) = some t
        ∧ 1 < t.amount ∧ t.amount * pct < 1) := by
  constructor
  · intro h
    have hnone : (fetchSPLTokens accounts).find? (fun x => x.mint == mint) = none := by
      rw [List.find?_eq_none]
      intro x hx
      rw [fetchSPLTokens, List.mem_filter] at hx
      obtain ⟨hxm, hxa⟩ := hx
      rw [List.mem_map] at hxm
      obtain ⟨a, ha, rfl⟩ := hxm
      simp only [decide_eq_true_eq] at hxa
      intro hbeq
      rw [beq_iff_eq] at hbeq
      exact absurd (h a ha hbeq) (not_le.mpr hxa)
    simp only [sellTokens, hnone]
  · intro hd
    cases hf : (fetchSPLTokens accounts).find? (fun x => x.mint == mint) with
    | none =>
      simp only [sellTokens, hf] at hd
      exact SellOutcome.noConfusion hd
    | some t =>
      simp only [sellTokens, hf] at hd
      by_cases h1 : 1 ≤ t.amount * pct
      · rw [if_pos h1] at hd
        exact SellOutcome.noConfusion hd
      · have hmem : t ∈ fetchSPLTokens accounts := List.mem_of_find?_eq_some hf
        rw [fetchSPLTokens, List.mem_filter] at hmem
        have hgt : 1 < t.amount := by
          have := hmem.2
          simpa using this
        exact ⟨t, rfl, hgt, not_le.mp h1⟩

/-- Claim C10 witness: one account for the mint holding raw amount 500000
(0.5 display units): the token is filtered out and `sellTokens` returns
without submitting and without the dust log. -/
theorem C10_dustFilter_witness :
    sellTokens (fetchSPLTokens [RawTokenAccount.mk "m" 500000]) "m" (1 / 2)
      = .noToken :=
  (C10_dustFilter [RawTokenAccount.mk "m" 500000] "m" (1 / 2)).1
    (by
      intro a ha hm
      rw [List.mem_singleton] at ha
      subst ha
      norm_num)

/-- Claim C8: a message arriving while the cooldown is active is dropped
with no evaluation and no state change; and handling a `new_pairs` message
outside cooldown always sets the cooldown to clear exactly
`COOLDOWN_WINDOW` after the message, whatever the quote, its eligibility or
the buy outcome. -/
theorem C8_cooldownGate (cooldownUntil : ℕ) (m : ScannerMsg) :
    (m.time < cooldownUntil →
      simulateTradeStep cooldownUntil m = (cooldownUntil, .ignoredCooldown))
    ∧ (¬ m.time < cooldownUntil → m.channel = "new_pairs" →
      (simulateTradeStep cooldownUntil m).1 = m.time + COOLDOWN_WINDOW) := by
  constructor
  · intro h
    simp [simulateTradeStep, h]
  · intro h hch
    cases hinfo : m.info with
    | none => simp [simulateTradeStep, h, hch, hinfo]
    | some t =>
      by_cases hb : t.bondingCurve < MAX_BONDING_CURVE_PROGRESS <;>
        simp [simulateTradeStep, h, hch, hinfo]

/-- Claim C8 witness: a `new_pairs` message at clock 20000 after a cooldown
set at clock 0 (cleared at 15000), with no resolved quote: the new cooldown
clears at 35000; and a message at clock 3 during that first cooldown is
dropped unchanged. -/
theorem C8_cooldownGate_witness :
    ((3 : ℕ) < 15000 →
      simulateTradeStep 15000 ⟨3, "new_pairs", "m", none, false⟩
        = (15000, .ignoredCooldown))
    ∧ (¬ (20000 : ℕ) < 15000 →
      ("new_pairs" : String) = "new_pairs" →
      (simulateTradeStep 15000 ⟨20000, "new_pairs", "m", none, false⟩).1
        = 20000 + COOLDOWN_WINDOW) :=
  ⟨fun h => (C8_cooldownGate 15000 ⟨3, "new_pairs", "m", none, false⟩).1 h,
   fun h hch =>
     (C8_cooldownGate 15000 ⟨20000, "new_pairs", "m", none, false⟩).2 h hch⟩

/-- The retry loop never makes more than `attempt + fuel` post attempts. -/
theorem apiGo_attempts_le (outcomes : ℕ → ApiOutcome) (retries : ℕ) :
    ∀ (fuel attempt delay : ℕ),
      (apiGo outcomes retries fuel attempt delay).attemptsUsed ≤ attempt + fuel := by
  intro fuel
  induction fuel with
  | zero =>
    intro attempt delay
    simp [apiGo]
  | succ n ih =>
    intro attempt delay
    rw [apiGo]
    cases outcomes attempt with
    | success => simp
    | failure resp =>
      by_cases h : retries ≤ attempt + 1
      · simp only [h, if_true]
        omega
      · simp only [h, if_false]
        have := ih (attempt + 1) (next429Delay delay resp * 2)
        omega

/-- Claim C9 counterexample: every attempt fails with a 429 response whose
`retry-after` header is present with value 0.  The claim says the waits use
the server-provided delay (0 ms); the code's `retryAfter * 1000 || delay`
treats the 0 as falsy and keeps the exponential backoff, so the four waits
are 1000, 2000, 4000, 8000 ms, not 0. -/
theorem C9_counterexample :
    (apiRequest (fun _ => ApiOutcome.failure (some ⟨429, some 0⟩)) 5).sleeps
      = [1000, 2000, 4000, 8000]
    ∧ (0 : ℕ) * 1000 = 0 ∧ (1000 : ℕ) ≠ 0 * 1000 := by decide

/-- Claim C9 (amended): `apiRequest` makes at most 5 attempts; when the
first five attempts all fail it throws the last error after exactly 5
attempts and 4 intermediate waits, where the first wait applies the 429
rule to the 1-second base delay and each later wait applies it to double
the previous wait — the 429 rule (`next429Delay`) takes the server's
`retry-after` when the response is a 429 carrying a positive value, and
keeps the current backoff value otherwise. -/
theorem C9_amended (outcomes : ℕ → ApiOutcome)
    (r0 r1 r2 r3 r4 : Option HttpResponse)
    (h0 : outcomes 0 = .failure r0) (h1 : outcomes 1 = .failure r1)
    (h2 : outcomes 2 = .failure r2) (h3 : outcomes 3 = .failure r3)
    (h4 : outcomes 4 = .failure r4) :
    (∀ g : ℕ → ApiOutcome, (apiRequest g 5).attemptsUsed ≤ 5)
    ∧ (apiRequest outcomes 5).res = .threw
    ∧ (apiRequest outcomes 5).attemptsUsed = 5
    ∧ (apiRequest outcomes 5).sleeps =
        [next429Delay BASE_API_DELAY r0,
         next429Delay (next429Delay BASE_API_DELAY r0 * 2) r1,
         next429Delay (next429Delay (next429Delay BASE_API_DELAY r0 * 2) r1 * 2) r2,
         next429Delay
           (next429Delay (next429Delay (next429Delay BASE_API_DELAY r0 * 2) r1 * 2) r2 * 2)
           r3] := by
  refine ⟨fun g => apiGo_attempts_le g 5 5 0 BASE_API_DELAY, ?_⟩
  simp [apiRequest, apiGo, h0, h1, h2, h3, h4, BASE_API_DELAY]

/-- Claim C9 amended, witness: five response-less network failures: 5
attempts, a throw, and waits 1000, 2000, 4000, 8000 ms. -/
theorem C9_amended_witness :
    (∀ g : ℕ → ApiOutcome, (apiRequest g 5).attemptsUsed ≤ 5)
    ∧ (apiRequest (fun _ => ApiOutcome.failure none) 5).res = .threw
    ∧ (apiRequest (fun _ => ApiOutcome.failure none) 5).attemptsUsed = 5
    ∧ (apiRequest (fun _ => ApiOutcome.failure none) 5).sleeps
        = [1000, 2000, 4000, 8000] :=
  C9_amended (fun _ => ApiOutcome.failure none) none none none none none
    rfl rfl rfl rfl rfl

